import Mathlib

/-!
Verification of the extraction core of the `ai-data-extractor-scrapper`
repository (files `src/llm_extractor.py`, `src/main.py`, `src/scraper.py`).

The development shallowly embeds the two extraction strategies and the
pipeline orchestrator:

* `extract_structured_data_mocked` — the heuristic (mock) variant, a pure
  keyword/regex function over the lower-cased input text;
* `extract_structured_data_ollama` — the model-backed variant; its network
  round trip is abstracted as an oracle argument `api`, the environment as an
  `OllamaConfig` record, and the function additionally reports how many
  network requests it issued (0 or 1);
* `run_extraction_pipeline` — the orchestrator from `main.py`, taking the
  fetch result as an `Option String` argument and additionally reporting how
  many extractor invocations it performed.

Python dictionaries are modelled as association lists with Python insertion
and update order (`dictSet`, `pyDictGet`); Python string containment, strip,
split and capitalize are modelled over `List Char`; the two regular
expressions used by the source are modelled by direct executable matchers
with the same leftmost/greedy/lazy semantics on the character classes the
source exercises (see the comments on the individual definitions); and the
standard-library JSON decoder `json.loads` is modelled by `pyJsonLoads`
(restricted to integer number literals and without the \u escape, neither of
which any statement below exercises).
-/

/-! Python character classes and string primitives -/

/-- The ASCII characters of the Python `str.strip` / regex `\s` whitespace
class: space, tab, newline, carriage return, vertical tab, form feed. -/
def isPyStrWs (c : Char) : Bool :=
  c = ' ' || c = '\t' || c = '\n' || c = '\r' || c = '\x0b' || c = '\x0c'

/-- The JSON inter-token whitespace class of `json.loads`:
space, tab, newline, carriage return. -/
def isJsonWs (c : Char) : Bool :=
  c = ' ' || c = '\t' || c = '\n' || c = '\r'

/-- Python `str.strip()`: remove leading and trailing whitespace. -/
def pyStrip (cs : List Char) : List Char :=
  ((cs.dropWhile isPyStrWs).reverse.dropWhile isPyStrWs).reverse

/-- Does `hay` start with `needle`? (building block of Python `in`). -/
def startsWithL : List Char → List Char → Bool
  | _, [] => true
  | [], _ :: _ => false
  | c :: hs, d :: ns => c = d && startsWithL hs ns

/-- Python substring containment `needle in hay` (with Python convention
that the empty string is contained in every string). -/
def containsStr : List Char → List Char → Bool
  | [], needle => needle.isEmpty
  | c :: t, needle => startsWithL (c :: t) needle || containsStr t needle

/-- Left-biased choice on `Option`, written out so that proofs can unfold
it; models the ordered alternatives of a backtracking regex. -/
def oElse : Option α → Option α → Option α
  | some a, _ => some a
  | none, b => b

/-- Worker for Python `str.split()` with no separator: split on whitespace
runs, discarding empty pieces. -/
def pySplitAux : List Char → List Char → List (List Char)
  | [], acc => if acc = [] then [] else [acc.reverse]
  | c :: rest, acc =>
    if isPyStrWs c then
      if acc = [] then pySplitAux rest [] else acc.reverse :: pySplitAux rest []
    else pySplitAux rest (c :: acc)

/-- Python `str.split()` with no separator. -/
def pySplitWs (cs : List Char) : List (List Char) :=
  pySplitAux cs []

/-- Python `str.capitalize()`: first character upper-cased, the rest
lower-cased. -/
def pyCapitalize : List Char → List Char
  | [] => []
  | c :: rest => c.toUpper :: rest.map Char.toLower

/-- Model of `" ".join(word.capitalize() for word in g.split())` from the mock
program-name branch. -/
def capitalizeWords (g : List Char) : String :=
  String.intercalate " " ((pySplitWs g).map (fun w => (pyCapitalize w).asString))

/-! JSON values and Python dictionaries -/

/-- JSON values as produced by `json.loads`.  Number literals are modelled
by their integer value (no statement in this file involves a float). -/
inductive Json where
  | null : Json
  | bool (b : Bool) : Json
  | num (n : Int) : Json
  | str (s : String) : Json
  | arr (elems : List Json) : Json
  | obj (fields : List (String × Json)) : Json

/-- Is this JSON value a string? -/
def Json.isStr : Json → Bool
  | Json.str _ => true
  | _ => false

/-- A Python `dict` with `str` keys, in insertion order. -/
abbrev PyDict := List (String × Json)

/-- Python `d[k] = v`: replace the value in place if the key is present
(keeping its position), otherwise append the new pair at the end. -/
def dictSet : PyDict → String → Json → PyDict
  | [], k, v => [(k, v)]
  | (k', v') :: rest, k, v =>
    if k' = k then (k, v) :: rest else (k', v') :: dictSet rest k v

/-- Python `d[k]` / `k in d` combined: the value at `k`, if present. -/
def pyDictGet : PyDict → String → Option Json
  | [], _ => none
  | (k', v) :: rest, k => if k' = k then some v else pyDictGet rest k

/-- The record type produced by the extractors (`Dict[str, Any]`). -/
abbrev ExtractionRecord := PyDict

/-! The target schema -/

/-- The constant `TARGET_SCHEMA` from `llm_extractor.py`: the five required field names,
each with semantic type "string". -/
def TARGET_SCHEMA : List (String × String) :=
  [("program_name", "string"),
   ("university_name", "string"),
   ("tuition_fee", "string"),
   ("application_deadline", "string"),
   ("entry_requirement_summary", "string")]

/-- The ordered key list of `TARGET_SCHEMA`. -/
def schemaKeysList : List String := TARGET_SCHEMA.map Prod.fst

/-! The mock regex `master(?:.s)?\s*(?:programme|program)?\s*in\s*[\w\s]+`

The matcher below follows the Python `re.search` semantics of this pattern:
leftmost starting position, greedy optional groups tried with the group
first, `.` matching every character except newline, and `\s` / `\w` taken at
their ASCII core (the only characters the source text reaches after
lower-casing). The adjacent greedy runs `\s*in` and `\s*[\w\s]+` are
implemented as maximal runs: the characters that follow them in the pattern
are never whitespace, so the maximal munch never needs to backtrack, and
`\s*[\w\s]+` as a whole consumes exactly the maximal run of word-or-space
characters (which must be nonempty). -/

/-- Regex `\w` (ASCII core): letters, digits, underscore. -/
def isWordChar (c : Char) : Bool :=
  c.isAlpha || c.isDigit || c = '_'

/-- Matches `\s*in\s*[\w\s]+` at the head of the input, returning the number
of characters consumed. -/
def tailInPart (cs : List Char) : Option Nat :=
  let w := (cs.takeWhile isPyStrWs).length
  let cs1 := cs.drop w
  if cs1.take 2 = ['i', 'n'] then
    let cs2 := cs1.drop 2
    let k := (cs2.takeWhile (fun c => isWordChar c || isPyStrWs c)).length
    if k = 0 then none else some (w + 2 + k)
  else none

/-- Matches `\s*(?:programme|program)?\s*in\s*[\w\s]+` at the head of the
input (alternatives tried in the Python preference order). -/
def progPart (cs : List Char) : Option Nat :=
  let w := (cs.takeWhile isPyStrWs).length
  let cs1 := cs.drop w
  let r1 := if cs1.take 9 = ['p', 'r', 'o', 'g', 'r', 'a', 'm', 'm', 'e'] then
      (tailInPart (cs1.drop 9)).map (fun n => w + 9 + n)
    else none
  let r2 := if cs1.take 7 = ['p', 'r', 'o', 'g', 'r', 'a', 'm'] then
      (tailInPart (cs1.drop 7)).map (fun n => w + 7 + n)
    else none
  let r3 := (tailInPart cs1).map (fun n => w + n)
  oElse r1 (oElse r2 r3)

/-- Matches `(?:.s)?\s*(?:programme|program)?\s*in\s*[\w\s]+` at the head of
the input; `.` is any character except `\n`. -/
def masterTail (cs : List Char) : Option Nat :=
  let r1 := match cs with
    | a :: b :: rest =>
      if a ≠ '\n' && b = 's' then (progPart rest).map (fun n => 2 + n) else none
    | _ => none
  oElse r1 (progPart cs)

/-- Tries the whole mock regex at the current position; on success returns
the text of capture group 1 (the whole match). -/
def matchMasterAt (cs : List Char) : Option (List Char) :=
  if cs.take 6 = ['m', 'a', 's', 't', 'e', 'r'] then
    (masterTail (cs.drop 6)).map (fun n => cs.take (6 + n))
  else none

/-- Model of `re.search` for the mock regex: first matching start position, scanning
left to right. -/
def searchMaster : List Char → Option (List Char)
  | [] => none
  | c :: rest => oElse (matchMasterAt (c :: rest)) (searchMaster rest)

/-! The heuristic (mock) extraction variant -/

/-- The fee keyword/symbol list of the mock extractor. -/
def feeKeywords : List String :=
  ["tuition", "fee", "cost", "€", "eur", "usd", "$", "gbp", "£"]

/-- The deadline keyword list of the mock extractor. -/
def deadlineKeywords : List String :=
  ["deadline", "apply by", "application period", "closes on"]

/-- The three-letter month abbreviations of the mock extractor. -/
def monthNames : List String :=
  ["jan", "feb", "mar", "apr", "may", "jun",
   "jul", "aug", "sep", "oct", "nov", "dec"]

/-- The entry-requirement keyword list of the mock extractor. -/
def reqKeywords : List String :=
  ["requirement", "admission", "entry", "eligibility",
   "qualification", "prerequisite", "ielts", "toefl"]

/-- The templated placeholder fee string of the mock extractor. -/
def mockFeeStr : String :=
  "Mock Fee: Approx. €XX,XXX / year (Non-EU). Verify on official page."

/-- The templated placeholder deadline string of the mock extractor. -/
def mockDeadlineStr : String :=
  "Mock Deadline: e.g., 1 March (Non-EU) / 1 May (EU). Verify on official page."

/-- The templated placeholder requirements string of the mock extractor. -/
def mockReqStr : String :=
  "Mock Requirements: Typically Bachelor\x27s degree + English proficiency (e.g., IELTS/TOEFL). Check specifics on official page."

/-- Model of `raw_text.lower() if raw_text else ""` from the mock extractor: both a
Python `None` argument and the empty string give the empty text, any other
string is lower-cased. -/
def mockTextLower : Option String → List Char
  | none => []
  | some s => if s = "" then [] else s.data.map Char.toLower

/-- Model of `extract_structured_data_mocked` from `llm_extractor.py`.  The input
text is an `Option String` so that a Python `None` argument is covered.
Values are `Json.str` strings inside the `Dict[str, Any]` model. -/
def extract_structured_data_mocked (raw_text : Option String)
    (university_name : String) : ExtractionRecord :=
  let extracted0 : ExtractionRecord :=
    TARGET_SCHEMA.map (fun kv => (kv.1, Json.str "Not found"))
  let extracted1 := dictSet extracted0 "university_name" (Json.str university_name)
  let text_lower : List Char := mockTextLower raw_text
  let extracted2 :=
    match searchMaster text_lower with
    | some g =>
      dictSet extracted1 "program_name"
        (Json.str ("Mock Program: " ++ capitalizeWords g))
    | none =>
      if containsStr text_lower ("information studies").data then
        dictSet extracted1 "program_name" (Json.str "Mock Program: Information Studies")
      else
        dictSet extracted1 "program_name" (Json.str "Mock Program: Check official page title")
  let extracted3 :=
    if feeKeywords.any (fun kw => containsStr text_lower kw.data) then
      dictSet extracted2 "tuition_fee" (Json.str mockFeeStr)
    else extracted2
  let extracted4 :=
    if (deadlineKeywords.any (fun kw => containsStr text_lower kw.data)
        || monthNames.any (fun m => containsStr text_lower m.data)) then
      dictSet extracted3 "application_deadline" (Json.str mockDeadlineStr)
    else extracted3
  let extracted5 :=
    if reqKeywords.any (fun kw => containsStr text_lower kw.data) then
      dictSet extracted4 "entry_requirement_summary" (Json.str mockReqStr)
    else extracted4
  extracted5

/-! A model of `json.loads`

`pyJsonLoads` is an executable recursive-descent decoder for the JSON texts
the source hands to `json.loads`: objects and arrays (with Python `dict`
last-wins duplicate-key semantics via `dictSet`), strings with the standard
one-character escapes, `true`/`false`/`null`, and integer number literals.
Float literals (`.`/`e`), `\u` escapes and the nonstandard `NaN`/`Infinity`
extensions are rejected; no statement in this file exercises them. -/

/-- String body decoder of `pyJsonLoads`: the input starts right after the
opening quote; returns the decoded string and the rest of the input.  Raw
control characters are rejected (strict mode), as are unknown escapes. -/
def parseJsonStringAux : List Char → List Char → Option (String × List Char)
  | [], _ => none
  | '"' :: rest, acc => some (acc.reverse.asString, rest)
  | '\\' :: e :: rest, acc =>
    if e = '"' then parseJsonStringAux rest ('"' :: acc)
    else if e = '\\' then parseJsonStringAux rest ('\\' :: acc)
    else if e = '/' then parseJsonStringAux rest ('/' :: acc)
    else if e = 'b' then parseJsonStringAux rest ('\x08' :: acc)
    else if e = 'f' then parseJsonStringAux rest ('\x0c' :: acc)
    else if e = 'n' then parseJsonStringAux rest ('\n' :: acc)
    else if e = 'r' then parseJsonStringAux rest ('\r' :: acc)
    else if e = 't' then parseJsonStringAux rest ('\t' :: acc)
    else none
  | c :: rest, acc =>
    if c.toNat < 0x20 then none else parseJsonStringAux rest (c :: acc)

/-- Digit-list to natural number. -/
def digitsToNat (ds : List Char) : Nat :=
  ds.foldl (fun a c => a * 10 + (c.toNat - '0'.toNat)) 0

/-- Number decoder of `pyJsonLoads` (integer literals only; a following
`.`, `e` or `E` — a float literal — is rejected, see the section comment). -/
def parseJsonNumber (cs : List Char) : Option (Json × List Char) :=
  let neg := match cs with | '-' :: _ => true | _ => false
  let cs1 := match cs with | '-' :: r => r | _ => cs
  let digits := cs1.takeWhile Char.isDigit
  let rest := cs1.dropWhile Char.isDigit
  if digits = [] then none
  else if (match digits with | '0' :: _ :: _ => true | _ => false) then none
  else match rest with
    | '.' :: _ => none
    | 'e' :: _ => none
    | 'E' :: _ => none
    | _ =>
      let n : Int := Int.ofNat (digitsToNat digits)
      some (Json.num (if neg then -n else n), rest)

mutual

/-- Value decoder of `pyJsonLoads`; the fuel argument bounds the nesting
depth (one unit is spent per nested container, so input length + 1 always
suffices). -/
def parseJsonValue : Nat → List Char → Option (Json × List Char)
  | 0, _ => none
  | fuel + 1, cs =>
    match cs.dropWhile isJsonWs with
    | [] => none
    | c :: rest =>
      if c = 'n' then
        if rest.take 3 = ['u', 'l', 'l'] then some (Json.null, rest.drop 3) else none
      else if c = 't' then
        if rest.take 3 = ['r', 'u', 'e'] then some (Json.bool true, rest.drop 3) else none
      else if c = 'f' then
        if rest.take 4 = ['a', 'l', 's', 'e'] then some (Json.bool false, rest.drop 4) else none
      else if c = '"' then
        (parseJsonStringAux rest []).map (fun sv => (Json.str sv.1, sv.2))
      else if c = '-' || c.isDigit then parseJsonNumber (c :: rest)
      else if c = '\x7b' then parseJsonObjFields fuel rest []
      else if c = '[' then parseJsonArrElems fuel rest []
      else none

/-- Object-member decoder of `pyJsonLoads`: the input starts right after
`\x7b` (when `acc` is empty) or right after a comma; duplicate keys resolve
last-wins as in a Python `dict`. -/
def parseJsonObjFields : Nat → List Char → PyDict → Option (Json × List Char)
  | 0, _, _ => none
  | fuel + 1, cs, acc =>
    match cs.dropWhile isJsonWs with
    | [] => none
    | c :: rest =>
      if c = '\x7d' then
        if acc.isEmpty then some (Json.obj [], rest) else none
      else if c = '"' then
        match parseJsonStringAux rest [] with
        | none => none
        | some (key, rest1) =>
          match rest1.dropWhile isJsonWs with
          | ':' :: rest2 =>
            match parseJsonValue fuel rest2 with
            | none => none
            | some (v, rest3) =>
              match rest3.dropWhile isJsonWs with
              | ',' :: rest4 => parseJsonObjFields fuel rest4 (dictSet acc key v)
              | '\x7d' :: rest4 => some (Json.obj (dictSet acc key v), rest4)
              | _ => none
          | _ => none
      else none

/-- Array-element decoder of `pyJsonLoads`: the input starts right after
`[` (when `acc` is empty) or right after a comma. -/
def parseJsonArrElems : Nat → List Char → List Json → Option (Json × List Char)
  | 0, _, _ => none
  | fuel + 1, cs, acc =>
    match cs.dropWhile isJsonWs with
    | [] => none
    | c :: rest =>
      if c = ']' then
        if acc.isEmpty then some (Json.arr [], rest) else none
      else
        match parseJsonValue fuel (c :: rest) with
        | none => none
        | some (v, rest1) =>
          match rest1.dropWhile isJsonWs with
          | ',' :: rest2 => parseJsonArrElems fuel rest2 (acc ++ [v])
          | ']' :: rest2 => some (Json.arr (acc ++ [v]), rest2)
          | _ => none

end

/-- Model of `json.loads` on a character list: decode one value and require only
whitespace to remain. -/
def pyJsonLoads (cs : List Char) : Option Json :=
  match parseJsonValue (cs.length + 1) cs with
  | some (v, rest) => if rest.dropWhile isJsonWs = [] then some v else none
  | none => none

/-! The fence regex ```` ```(?:json)?\s*(\{.*?\})\s*``` ```` (DOTALL)

`searchFence` models the `re.search` in the response-parsing step of the
model-backed variant, returning capture group 1. Leftmost start position;
the optional `json` tag is greedy (tried with the tag first); `\s*` before
`\{` and after `\}` are maximal munches (the character that must follow each
of them is never whitespace, so no backtracking arises); the lazy `\{.*?\}`
stops at the first closing brace whose suffix matches `\s*` followed by
three backticks; with DOTALL, `.` matches every character. -/

/-- Does the input start with three backticks? -/
def fencePrefix : List Char → Bool
  | a :: b :: c :: _ => a = '\x60' && b = '\x60' && c = '\x60'
  | _ => false

/-- Does the input match `\s*` followed by three backticks (as a prefix)? -/
def closeOk (cs : List Char) : Bool :=
  fencePrefix (cs.dropWhile isPyStrWs)

/-- The lazy scan for `.*?` in `\{(.*?)\}\s*` + three backticks: returns the
shortest run of characters before a `\x7d` whose suffix satisfies
`closeOk`. -/
def lazyClose : List Char → Option (List Char)
  | [] => none
  | c :: rest =>
    if c = '\x7d' && closeOk rest then some []
    else (lazyClose rest).map (fun p => c :: p)

/-- Matches `\s*(\{.*?\})\s*` + three backticks at the head of the input,
returning capture group 1. -/
def fenceBody (cs : List Char) : Option (List Char) :=
  match cs.dropWhile isPyStrWs with
  | c :: rest =>
    if c = '\x7b' then (lazyClose rest).map (fun p => '\x7b' :: (p ++ ['\x7d']))
    else none
  | [] => none

/-- Tries the whole fence regex at the current position: three backticks,
then the greedy optional `json` tag (tried with the tag first), then
`fenceBody`. -/
def matchFenceAt (cs : List Char) : Option (List Char) :=
  if startsWithL cs ['\x60', '\x60', '\x60'] then
    let rest := cs.drop 3
    if startsWithL rest ['j', 's', 'o', 'n'] then
      oElse (fenceBody (rest.drop 4)) (fenceBody rest)
    else fenceBody rest
  else none

/-- Model of `re.search` for the fence regex: first matching start position. -/
def searchFence : List Char → Option (List Char)
  | [] => none
  | c :: rest => oElse (matchFenceAt (c :: rest)) (searchFence rest)

/-- The response content `t` wrapped in a markdown code fence, with or
without a `json` language tag, for an object text `t` of the shape
`"\x7b" ++ u ++ "\x7d"`:
`fenceWrapU tag u` is exactly `"\x60\x60\x60" ++ (tag ? "json" : "") ++
"\n" ++ t ++ "\n\x60\x60\x60"`, written in right-associated cons form. -/
def fenceWrapU (tag : Bool) (u : List Char) : List Char :=
  '\x60' :: '\x60' :: '\x60' ::
    ((if tag then ['j', 's', 'o', 'n'] else []) ++
      ('\n' :: '\x7b' ::
        (u ++ ('\x7d' :: '\n' :: '\x60' :: '\x60' :: '\x60' :: []))))

/-! The model-backed (Ollama) extraction variant -/

/-- The payload selection of the response-parsing step: the fenced JSON
object if the fence regex matches, otherwise the whole response stripped of
surrounding whitespace. -/
def ollamaPayloadL (cs : List Char) : List Char :=
  match searchFence cs with
  | some g => g
  | none => pyStrip cs

/-- The key-validation loop of the model-backed variant: for every schema
key in order, pass the parsed value through unchanged if present, otherwise
insert the provenance-tagged sentinel; keys outside the schema are dropped
(the retain-extras line in the source is commented out). -/
def validateKeys : List String → PyDict → ExtractionRecord
  | [], _ => []
  | key :: rest, kvs =>
    (match pyDictGet kvs key with
     | some v => (key, v)
     | none => (key, Json.str "Not found (missing in LLM output)")) :: validateKeys rest kvs

/-- Parse-and-validate stage of `extract_structured_data_ollama` on the
response content: select the payload, decode it as JSON, fail (`none`) when
decoding fails or the decoded value is not an object, and otherwise validate
the keys. -/
def ollamaParseContentL (cs : List Char) : Option ExtractionRecord :=
  match pyJsonLoads (ollamaPayloadL cs) with
  | some (Json.obj kvs) => some (validateKeys schemaKeysList kvs)
  | some _ => none
  | none => none

/-- Does the selected payload of this response content decode to a JSON
object? -/
def payloadIsObj (cs : List Char) : Bool :=
  match pyJsonLoads (ollamaPayloadL cs) with
  | some (Json.obj _) => true
  | _ => false

/-- The string `json.dumps(TARGET_SCHEMA, indent=2)` as rendered into the system
prompt. -/
def schemaJsonString : String :=
  "\x7b\n  \"program_name\": \"string\",\n  \"university_name\": \"string\",\n  \"tuition_fee\": \"string\",\n  \"application_deadline\": \"string\",\n  \"entry_requirement_summary\": \"string\"\n\x7d"

/-- Text of `SYSTEM_PROMPT_TEMPLATE` up to the `schema_json_string` placeholder. -/
def SYSTEM_PROMPT_PART_A : String :=
  "\nYou are an expert assistant specialized in extracting structured information from university program webpages.\nYour task is to analyze the provided text and extract information matching the fields in the following JSON schema.\nYou MUST respond ONLY with a single, valid JSON object containing the extracted data.\nDo NOT include any explanations, markdown formatting (like \x60\x60\x60json), or introductory/concluding text outside the JSON object itself.\nIf a specific piece of information cannot be found in the text, use the exact string \"Not found\" as the value for that field in the JSON output.\n\nJSON Schema:\n"

/-- Text of `SYSTEM_PROMPT_TEMPLATE` after the `schema_json_string` placeholder. -/
def SYSTEM_PROMPT_PART_B : String := "\n"

/-- The formatted system prompt. -/
def systemPromptStr : String :=
  SYSTEM_PROMPT_PART_A ++ schemaJsonString ++ SYSTEM_PROMPT_PART_B

/-- Text of `USER_PROMPT_TEMPLATE` up to the `university_name` placeholder. -/
def USER_PROMPT_PART_A : String :=
  "\nAnalyze the following text scraped from the webpage of \""

/-- Text of `USER_PROMPT_TEMPLATE` between the two placeholders. -/
def USER_PROMPT_PART_B : String :=
  "\" and extract the required information based on the schema provided in the system prompt.\n\nWebpage Text:\n\"\"\"\n"

/-- Text of `USER_PROMPT_TEMPLATE` after the `raw_text` placeholder. -/
def USER_PROMPT_PART_C : String :=
  "\n\"\"\"\n\nRespond ONLY with the valid JSON object:\n"

/-- The formatted user prompt. -/
def userPromptStr (university_name raw_text : String) : String :=
  USER_PROMPT_PART_A ++ university_name ++ USER_PROMPT_PART_B ++ raw_text ++ USER_PROMPT_PART_C

/-- The outcome of the single chat-completion request, as distinguished by
the exception handlers of the source: a successful response with textual
content, a connection error, a rate-limit rejection, a non-success status,
or any other exception. -/
inductive ApiResult where
  | success (content : String) : ApiResult
  | connectionError : ApiResult
  | rateLimitError : ApiResult
  | statusError (errContent : String) : ApiResult
  | otherError : ApiResult

/-- The two environment values read by the model-backed variant
(`os.getenv` results: `none` models an unset variable). -/
structure OllamaConfig where
  ollama_base_url : Option String
  ollama_model : Option String

/-- Python truthiness of an optional string: `None` and `""` are falsy. -/
def pyTruthy : Option String → Bool
  | none => false
  | some s => if s = "" then false else true

/-- Model of `extract_structured_data_ollama` from `llm_extractor.py`.  The chat
completion endpoint is the oracle `api`, applied to the ordered
(role, content) message list; the second component of the result counts the
network requests issued (the source issues at most one and never retries).
Every exception arm of the source returns `None`; client construction has no
observable effect and is not represented. -/
def extract_structured_data_ollama (cfg : OllamaConfig)
    (api : List (String × String) → ApiResult)
    (raw_text : String) (university_name : String) :
    Option ExtractionRecord × Nat :=
  if !pyTruthy cfg.ollama_base_url || !pyTruthy cfg.ollama_model then (none, 0)
  else
    let system_prompt := systemPromptStr
    let user_prompt := userPromptStr university_name raw_text
    let messages := [("system", system_prompt), ("user", user_prompt)]
    match api messages with
    | ApiResult.success content => (ollamaParseContentL content.data, 1)
    | ApiResult.connectionError => (none, 1)
    | ApiResult.rateLimitError => (none, 1)
    | ApiResult.statusError _ => (none, 1)
    | ApiResult.otherError => (none, 1)

/-! The pipeline orchestrator -/

/-- Model of `run_extraction_pipeline` from `main.py`.  The fetch stage is
represented by its result (`raw_text`: what `scrape_program_page` returned,
`none` for a fetch/parse failure); the second component of the result counts
the extraction-strategy invocations.  The source checks Python truthiness at
both stages: a `None` or empty fetch result aborts before any extraction,
and a falsy extractor result (for a dict: empty) yields `None`. -/
def run_extraction_pipeline (raw_text : Option String) (university : String)
    (extractor_type : String) (cfg : OllamaConfig)
    (api : List (String × String) → ApiResult) :
    Option ExtractionRecord × Nat :=
  if !pyTruthy raw_text then (none, 0)
  else
    let text := match raw_text with | some s => s | none => ""
    if extractor_type = "ollama" then
      let structured_data := (extract_structured_data_ollama cfg api text university).1
      ((match structured_data with
        | none => none
        | some d => if d.isEmpty then none else some d), 1)
    else if extractor_type = "mock" then
      let structured_data := extract_structured_data_mocked (some text) university
      ((if structured_data.isEmpty then none else some structured_data), 1)
    else (none, 0)

/-! Lemmas about the dictionary model -/

theorem dictSet_keys (d : PyDict) (k : String) (v : Json)
    (h : k ∈ d.map Prod.fst) :
    (dictSet d k v).map Prod.fst = d.map Prod.fst := by
  induction d with
  | nil => simp at h
  | cons p rest ih =>
    obtain ⟨k', v'⟩ := p
    by_cases hk : k' = k
    · subst hk
      simp [dictSet]
    · simp only [List.map_cons, List.mem_cons] at h
      rcases h with h | h

      · exact absurd h.symm hk
      · simp [dictSet, hk, ih h]

theorem pyDictGet_dictSet_eq (d : PyDict) (k : String) (v : Json) :
    pyDictGet (dictSet d k v) k = some v := by
  induction d with
  | nil => simp [dictSet, pyDictGet]
  | cons p rest ih =>
    obtain ⟨k', v'⟩ := p
    by_cases hk : k' = k
    · subst hk
      simp [dictSet, pyDictGet]
    · simp [dictSet, pyDictGet, hk, ih]

theorem pyDictGet_dictSet_ne (d : PyDict) (k k' : String) (v : Json)
    (h : k' ≠ k) :
    pyDictGet (dictSet d k' v) k = pyDictGet d k := by
  induction d with
  | nil => simp [dictSet, pyDictGet, h]
  | cons p rest ih =>
    obtain ⟨k'', v''⟩ := p
    by_cases hk : k'' = k'
    · subst hk
      simp [dictSet, pyDictGet, h]
    · simp [dictSet, pyDictGet, hk, ih]

theorem pyDictGet_mem (d : PyDict) (k : String) (v : Json)
    (h : pyDictGet d k = some v) : ∃ k', (k', v) ∈ d := by
  induction d with
  | nil => simp [pyDictGet] at h
  | cons p rest ih =>
    obtain ⟨k', v'⟩ := p
    by_cases hk : k' = k
    · subst hk
      have hv : v' = v := by simpa [pyDictGet] using h
      subst hv
      exact ⟨k', by simp⟩
    · simp only [pyDictGet, if_neg hk] at h
      obtain ⟨k'', hmem⟩ := ih h
      exact ⟨k'', List.mem_cons_of_mem _ hmem⟩

/-! Lemmas about the key-validation loop -/

theorem validateKeys_get_mem (ks : List String) (kvs : PyDict) (key : String)
    (h : key ∈ ks) :
    pyDictGet (validateKeys ks kvs) key =
      some (match pyDictGet kvs key with
            | some v => v
            | none => Json.str "Not found (missing in LLM output)") := by
  induction ks with
  | nil => simp at h
  | cons k rest ih =>
    by_cases hk : k = key
    · subst hk
      cases hg : pyDictGet kvs k <;>
        simp [validateKeys, pyDictGet, hg]
    · have hmem : key ∈ rest := by
        rcases List.mem_cons.mp h with h' | h'
        · exact absurd h'.symm hk
        · exact h'
      cases hg : pyDictGet kvs k <;>
        simp [validateKeys, pyDictGet, hg, hk, ih hmem]

theorem validateKeys_get_not_mem (ks : List String) (kvs : PyDict)
    (key : String) (h : key ∉ ks) :
    pyDictGet (validateKeys ks kvs) key = none := by
  induction ks with
  | nil => simp [validateKeys, pyDictGet]
  | cons k rest ih =>
    have hk : k ≠ key := fun e => h (by simp [e])
    have hrest : key ∉ rest := fun e => h (List.mem_cons_of_mem _ e)
    cases hg : pyDictGet kvs k <;>
      simp [validateKeys, pyDictGet, hg, hk, ih hrest]

theorem validateKeys_values (ks : List String) (kvs : PyDict)
    (h : ∀ q : String × Json, q ∈ kvs → q.2.isStr = true) :
    ∀ p : String × Json, p ∈ validateKeys ks kvs → p.2.isStr = true := by
  induction ks with
  | nil => intro p hp; simp [validateKeys] at hp
  | cons k rest ih =>
    intro p hp
    cases hg : pyDictGet kvs k <;> rw [validateKeys] at hp <;> rw [hg] at hp
    · rcases List.mem_cons.mp hp with h' | h'
      · subst h'
        rfl
      · exact ih p h'
    · next v =>
      rcases List.mem_cons.mp hp with h' | h'
      · subst h'
        obtain ⟨k', hmem⟩ := pyDictGet_mem kvs k v hg
        exact h (k', v) hmem
      · exact ih p h'

/-! Lemmas about the fence regex -/

theorem searchFence_step (c : Char) (l : List Char) :
    searchFence (c :: l) = oElse (matchFenceAt (c :: l)) (searchFence l) := rfl

theorem fencePrefix_cons_ne (a : Char) (l : List Char) (h : a ≠ '\x60') :
    fencePrefix (a :: l) = false := by
  cases l with
  | nil => rfl
  | cons b l2 =>
    cases l2 with
    | nil => rfl
    | cons c l3 => simp [fencePrefix, h]

theorem closeOk_append_false (u : List Char) (rest : List Char)
    (h : ∀ c ∈ u, c ≠ '\x60') :
    closeOk (u ++ '\x7d' :: rest) = false := by
  induction u with
  | nil =>
    simp only [List.nil_append, closeOk, List.dropWhile_cons,
      show isPyStrWs '\x7d' = false from rfl, Bool.false_eq_true, if_false]
    exact fencePrefix_cons_ne _ _ (by decide)
  | cons d u' ih =>
    have hd : d ≠ '\x60' := h d (List.mem_cons_self _ _)
    have hrest : ∀ c ∈ u', c ≠ '\x60' :=
      fun c hc => h c (List.mem_cons_of_mem _ hc)
    cases hws : isPyStrWs d with
    | true =>
      have hstep : closeOk ((d :: u') ++ '\x7d' :: rest) = closeOk (u' ++ '\x7d' :: rest) := by
        simp [closeOk, List.cons_append, List.dropWhile_cons, hws]
      rw [hstep]
      exact ih hrest
    | false =>
      simp only [List.cons_append, closeOk, List.dropWhile_cons, hws,
        Bool.false_eq_true, if_false]
      exact fencePrefix_cons_ne _ _ hd

theorem lazyClose_wrap (u : List Char) (h : ∀ c ∈ u, c ≠ '\x60') :
    lazyClose (u ++ ('\x7d' :: '\n' :: '\x60' :: '\x60' :: '\x60' :: [])) = some u := by
  induction u with
  | nil => rfl
  | cons c u' ih =>
    have hrest : ∀ x ∈ u', x ≠ '\x60' :=
      fun x hx => h x (List.mem_cons_of_mem _ hx)
    by_cases hc : c = '\x7d'
    · have hco := closeOk_append_false u'
        ('\n' :: '\x60' :: '\x60' :: '\x60' :: []) hrest
      simp [lazyClose, List.cons_append, hco, ih hrest]
    · simp [lazyClose, List.cons_append, hc, ih hrest]

theorem matchFenceAt_json (R : List Char) :
    matchFenceAt ('\x60' :: '\x60' :: '\x60' :: 'j' :: 's' :: 'o' :: 'n' :: '\n' :: '\x7b' :: R) =
      oElse ((lazyClose R).map (fun p => '\x7b' :: (p ++ ['\x7d']))) none := rfl

theorem matchFenceAt_notag (R : List Char) :
    matchFenceAt ('\x60' :: '\x60' :: '\x60' :: '\n' :: '\x7b' :: R) =
      (lazyClose R).map (fun p => '\x7b' :: (p ++ ['\x7d'])) := rfl

theorem searchFence_fenceWrapU (tag : Bool) (u : List Char)
    (h : ∀ c ∈ u, c ≠ '\x60') :
    searchFence (fenceWrapU tag u) = some ('\x7b' :: (u ++ ['\x7d'])) := by
  cases tag with
  | true =>
    rw [show fenceWrapU true u =
        '\x60' :: '\x60' :: '\x60' :: 'j' :: 's' :: 'o' :: 'n' :: '\n' :: '\x7b' ::
          (u ++ ('\x7d' :: '\n' :: '\x60' :: '\x60' :: '\x60' :: [])) from rfl]
    rw [searchFence_step, matchFenceAt_json, lazyClose_wrap u h]
    rfl
  | false =>
    rw [show fenceWrapU false u =
        '\x60' :: '\x60' :: '\x60' :: '\n' :: '\x7b' ::
          (u ++ ('\x7d' :: '\n' :: '\x60' :: '\x60' :: '\x60' :: [])) from rfl]
    rw [searchFence_step, matchFenceAt_notag, lazyClose_wrap u h]
    rfl

theorem matchFenceAt_cons_ne (c : Char) (l : List Char) (h : c ≠ '\x60') :
    matchFenceAt (c :: l) = none := by
  have hs : startsWithL (c :: l) ['\x60', '\x60', '\x60'] = false := by
    simp [startsWithL, h]
  simp [matchFenceAt, hs]

theorem searchFence_none (cs : List Char) (h : ∀ c ∈ cs, c ≠ '\x60') :
    searchFence cs = none := by
  induction cs with
  | nil => rfl
  | cons c rest ih =>
    rw [searchFence_step, matchFenceAt_cons_ne c rest (h c (List.mem_cons_self _ _))]
    exact ih (fun x hx => h x (List.mem_cons_of_mem _ hx))

theorem pyStrip_braces (u : List Char) :
    pyStrip ('\x7b' :: (u ++ ['\x7d'])) = '\x7b' :: (u ++ ['\x7d']) := by
  unfold pyStrip
  rw [List.dropWhile_cons]
  simp only [show isPyStrWs '\x7b' = false from rfl, Bool.false_eq_true, if_false]
  rw [show ('\x7b' :: (u ++ ['\x7d'])).reverse = '\x7d' :: (u.reverse ++ ['\x7b']) from by simp]
  rw [List.dropWhile_cons]
  simp only [show isPyStrWs '\x7d' = false from rfl, Bool.false_eq_true, if_false]
  simp

theorem ollamaPayload_fenceWrapU (tag : Bool) (u : List Char)
    (h : ∀ c ∈ u, c ≠ '\x60') :
    ollamaPayloadL (fenceWrapU tag u) = '\x7b' :: (u ++ ['\x7d']) := by
  unfold ollamaPayloadL
  rw [searchFence_fenceWrapU tag u h]

theorem ollamaPayload_plain (u : List Char) (h : ∀ c ∈ u, c ≠ '\x60') :
    ollamaPayloadL ('\x7b' :: (u ++ ['\x7d'])) = '\x7b' :: (u ++ ['\x7d']) := by
  have hall : ∀ c ∈ '\x7b' :: (u ++ ['\x7d']), c ≠ '\x60' := by
    intro c hc
    rcases List.mem_cons.mp hc with rfl | hc
    · decide
    · rcases List.mem_append.mp hc with hcu | hcz
      · exact h c hcu
      · rw [List.mem_singleton.mp hcz]; decide
  unfold ollamaPayloadL
  rw [searchFence_none _ hall]
  exact pyStrip_braces u

/-! Claim theorems -/

/-- C3: in the model-backed variant, whenever the payload of the response
parses to a JSON object, a valid record is returned, every schema key
missing from the object is bound to the provenance-tagged sentinel
"Not found (missing in LLM output)", every schema key present in the object
keeps its parsed value unchanged, and every key outside the schema is absent
from the result. -/
theorem ollama_key_validation (raw : List Char) (kvs : PyDict) (key : String)
    (hparse : pyJsonLoads (ollamaPayloadL raw) = some (Json.obj kvs)) :
    ollamaParseContentL raw = some (validateKeys schemaKeysList kvs) ∧
    (key ∈ schemaKeysList → pyDictGet kvs key = none →
      pyDictGet (validateKeys schemaKeysList kvs) key =
        some (Json.str "Not found (missing in LLM output)")) ∧
    (∀ v : Json, key ∈ schemaKeysList → pyDictGet kvs key = some v →
      pyDictGet (validateKeys schemaKeysList kvs) key = some v) ∧
    (key ∉ schemaKeysList →
      pyDictGet (validateKeys schemaKeysList kvs) key = none) := by
  refine ⟨?_, ?_, ?_, ?_⟩
  · unfold ollamaParseContentL
    rw [hparse]
  · intro hmem hnone
    rw [validateKeys_get_mem _ _ _ hmem, hnone]
  · intro v hmem hsome
    rw [validateKeys_get_mem _ _ _ hmem, hsome]
  · intro hnmem
    exact validateKeys_get_not_mem _ _ _ hnmem

/-- Witness for C3 at the response content
`{"program_name": "CS", "extra_key": true}`: the missing schema key
`tuition_fee` gets the provenance-tagged sentinel, the present schema key
`program_name` keeps its value, and the extra key is dropped. -/
theorem ollama_key_validation_witness :
    ollamaParseContentL ("\x7b\"program_name\": \"CS\", \"extra_key\": true\x7d").data =
      some (validateKeys schemaKeysList
        [("program_name", Json.str "CS"), ("extra_key", Json.bool true)]) ∧
    pyDictGet (validateKeys schemaKeysList
      [("program_name", Json.str "CS"), ("extra_key", Json.bool true)]) "tuition_fee" =
        some (Json.str "Not found (missing in LLM output)") ∧
    pyDictGet (validateKeys schemaKeysList
      [("program_name", Json.str "CS"), ("extra_key", Json.bool true)]) "program_name" =
        some (Json.str "CS") ∧
    pyDictGet (validateKeys schemaKeysList
      [("program_name", Json.str "CS"), ("extra_key", Json.bool true)]) "extra_key" = none := by
  refine ⟨?_, ?_, ?_, ?_⟩
  · exact (ollama_key_validation ("\x7b\"program_name\": \"CS\", \"extra_key\": true\x7d").data
      [("program_name", Json.str "CS"), ("extra_key", Json.bool true)] "tuition_fee" rfl).1
  · exact (ollama_key_validation ("\x7b\"program_name\": \"CS\", \"extra_key\": true\x7d").data
      [("program_name", Json.str "CS"), ("extra_key", Json.bool true)] "tuition_fee" rfl).2.1
      (by decide) rfl
  · exact (ollama_key_validation ("\x7b\"program_name\": \"CS\", \"extra_key\": true\x7d").data
      [("program_name", Json.str "CS"), ("extra_key", Json.bool true)] "program_name" rfl).2.2.1
      (Json.str "CS") (by decide) rfl
  · exact (ollama_key_validation ("\x7b\"program_name\": \"CS\", \"extra_key\": true\x7d").data
      [("program_name", Json.str "CS"), ("extra_key", Json.bool true)] "extra_key" rfl).2.2.2
      (by decide)

/-- C4 (amended): the response-parsing step of the model-backed variant
gives the same result for an object text `"\x7b" ++ u ++ "\x7d"` wrapped in a
markdown code fence (with or without a `json` language tag) as for the same
text unfenced, provided the text contains no backtick character — which
covers every serialized JSON object without backticks; and for every
response content whose selected payload does not decode to a JSON object
(malformed JSON or a non-object value) the step returns the failure signal
`none`, never a partial record. -/
theorem ollama_fence_transparent_and_fails_closed :
    (∀ (u : List Char) (tag : Bool), (∀ c ∈ u, c ≠ '\x60') →
      ollamaParseContentL (fenceWrapU tag u) =
        ollamaParseContentL ('\x7b' :: (u ++ ['\x7d']))) ∧
    (∀ cs : List Char, payloadIsObj cs = false → ollamaParseContentL cs = none) := by
  constructor
  · intro u tag h
    unfold ollamaParseContentL
    rw [ollamaPayload_fenceWrapU tag u h, ollamaPayload_plain u h]
  · intro cs h
    unfold payloadIsObj at h
    unfold ollamaParseContentL
    rcases hj : pyJsonLoads (ollamaPayloadL cs) with _ | j
    · rfl
    · rw [hj] at h
      cases j with
      | obj kvs => simp at h
      | null => rfl
      | bool b => rfl
      | num n => rfl
      | str s => rfl
      | arr elems => rfl

/-- Witness for C4: the object text `{"a": 1}` parses identically fenced
(with the `json` tag) and unfenced, and the non-JSON content `not json`
yields the failure signal. -/
theorem ollama_fence_transparent_witness :
    ollamaParseContentL (fenceWrapU true ("\"a\": 1").data) =
      ollamaParseContentL ('\x7b' :: (("\"a\": 1").data ++ ['\x7d'])) ∧
    ollamaParseContentL ("not json").data = none := by
  constructor
  · exact ollama_fence_transparent_and_fails_closed.1 ("\"a\": 1").data true (by decide)
  · exact ollama_fence_transparent_and_fails_closed.2 ("not json").data rfl

/-- Counterexample to C4 as stated: the text
`t = "\x7b\"a\": \"\x7d\x60\x60\x60\"\x7d"` is the serialization of the JSON
object with the single field `a` holding the string `"\x7d\x60\x60\x60"`
(close brace followed by three backticks); unfenced it parses to a record,
but wrapped in a `json`-tagged markdown code fence the lazy fence regex
stops at the close brace inside the string literal, the truncated payload
`\x7b"a": "\x7d` is malformed JSON, and the variant returns the failure
signal instead of the same record. -/
theorem ollama_fence_not_transparent_cex :
    ("\x60\x60\x60json\n\x7b\"a\": \"\x7d\x60\x60\x60\"\x7d\n\x60\x60\x60" : String) =
      "\x60\x60\x60json\n" ++ "\x7b\"a\": \"\x7d\x60\x60\x60\"\x7d" ++ "\n\x60\x60\x60" ∧
    pyJsonLoads ("\x7b\"a\": \"\x7d\x60\x60\x60\"\x7d").data =
      some (Json.obj [("a", Json.str "\x7d\x60\x60\x60")]) ∧
    ollamaParseContentL ("\x7b\"a\": \"\x7d\x60\x60\x60\"\x7d").data =
      some [("program_name", Json.str "Not found (missing in LLM output)"),
            ("university_name", Json.str "Not found (missing in LLM output)"),
            ("tuition_fee", Json.str "Not found (missing in LLM output)"),
            ("application_deadline", Json.str "Not found (missing in LLM output)"),
            ("entry_requirement_summary", Json.str "Not found (missing in LLM output)")] ∧
    ollamaParseContentL ("\x60\x60\x60json\n\x7b\"a\": \"\x7d\x60\x60\x60\"\x7d\n\x60\x60\x60").data =
      none := ⟨rfl, rfl, rfl, rfl⟩

/-- C5: if the endpoint base address or the model identifier is absent from
the environment, the model-backed variant returns the failure signal with
zero network requests issued, for every oracle and every input. -/
theorem ollama_config_missing (cfg : OllamaConfig)
    (api : List (String × String) → ApiResult) (raw_text university_name : String)
    (h : cfg.ollama_base_url = none ∨ cfg.ollama_model = none) :
    extract_structured_data_ollama cfg api raw_text university_name = (none, 0) := by
  unfold extract_structured_data_ollama
  rcases h with h | h <;> rw [h] <;> simp [pyTruthy]

/-- Witness for C5: with `OLLAMA_BASE_URL` unset (and the model set), the
model-backed variant fails immediately with zero network requests. -/
theorem ollama_config_missing_witness :
    extract_structured_data_ollama ⟨none, some "llama3"⟩
      (fun _ => ApiResult.otherError) "some text" "Some University" = (none, 0) :=
  ollama_config_missing ⟨none, some "llama3"⟩
    (fun _ => ApiResult.otherError) "some text" "Some University" (Or.inl rfl)

/-- C6: if the Fetcher returns null, the pipeline returns no result and
invokes no extraction strategy, whatever the selected strategy, the
university name, the configuration and the oracle. -/
theorem pipeline_fetch_none (university extractor_type : String)
    (cfg : OllamaConfig) (api : List (String × String) → ApiResult) :
    run_extraction_pipeline none university extractor_type cfg api = (none, 0) := rfl

/-- C10: if the Fetcher succeeds but returns the empty string (as
`scrape_program_page` does when no main-content container is found and the
document has no body), the pipeline treats it exactly like a null fetch
result: no result, and no extraction strategy invoked. -/
theorem pipeline_fetch_empty (university extractor_type : String)
    (cfg : OllamaConfig) (api : List (String × String) → ApiResult) :
    run_extraction_pipeline (some "") university extractor_type cfg api = (none, 0) := rfl

/-- C1: for every input pair, including a null (`none`) or empty input
text, the heuristic variant is total (it is a Lean function, so it always
returns) and its record's key list is exactly the five `TARGET_SCHEMA`
keys, in schema order. -/
theorem mocked_total_schema_keys (raw : Option String) (uni : String) :
    (extract_structured_data_mocked raw uni).map Prod.fst = schemaKeysList := by
  unfold extract_structured_data_mocked
  cases hm : searchMaster (mockTextLower raw) <;>
    by_cases h1 : containsStr (mockTextLower raw) ("information studies").data = true <;>
    by_cases h2 : feeKeywords.any (fun kw => containsStr (mockTextLower raw) kw.data) = true <;>
    by_cases h3 : (deadlineKeywords.any (fun kw => containsStr (mockTextLower raw) kw.data)
        || monthNames.any (fun m => containsStr (mockTextLower raw) m.data)) = true <;>
    by_cases h4 : reqKeywords.any (fun kw => containsStr (mockTextLower raw) kw.data) = true <;>
    simp [hm, h1, h2, h3, h4, dictSet, TARGET_SCHEMA, schemaKeysList]

/-- C2 (amended): the `university_name` argument appears verbatim as the
`university_name` field of every record produced by the heuristic variant;
in the model-backed variant the `university_name` field is taken from the
model's parsed JSON (or the missing-output sentinel), not from the
argument — see the counterexample. -/
theorem mocked_university_name_verbatim (raw : Option String) (uni : String) :
    pyDictGet (extract_structured_data_mocked raw uni) "university_name" =
      some (Json.str uni) := by
  unfold extract_structured_data_mocked
  cases hm : searchMaster (mockTextLower raw) <;>
    by_cases h1 : containsStr (mockTextLower raw) ("information studies").data = true <;>
    by_cases h2 : feeKeywords.any (fun kw => containsStr (mockTextLower raw) kw.data) = true <;>
    by_cases h3 : (deadlineKeywords.any (fun kw => containsStr (mockTextLower raw) kw.data)
        || monthNames.any (fun m => containsStr (mockTextLower raw) m.data)) = true <;>
    by_cases h4 : reqKeywords.any (fun kw => containsStr (mockTextLower raw) kw.data) = true <;>
    simp [hm, h1, h2, h3, h4, dictSet, pyDictGet, TARGET_SCHEMA]

/-- Counterexample to C2 as stated: with the argument "University A" and a
model response whose JSON carries "Other University", the model-backed
variant returns a record whose `university_name` field is the model's
value, not the argument (the source fills `validated_data` only from the
parsed response, never from the `university_name` parameter). -/
theorem ollama_university_name_not_argument_cex :
    (extract_structured_data_ollama
        ⟨some "http://localhost:11434/v1", some "llama3"⟩
        (fun _ => ApiResult.success "\x7b\"university_name\": \"Other University\"\x7d")
        "" "University A").1 =
      some [("program_name", Json.str "Not found (missing in LLM output)"),
            ("university_name", Json.str "Other University"),
            ("tuition_fee", Json.str "Not found (missing in LLM output)"),
            ("application_deadline", Json.str "Not found (missing in LLM output)"),
            ("entry_requirement_summary", Json.str "Not found (missing in LLM output)")] ∧
    ("Other University" : String) ≠ "University A" := ⟨rfl, by decide⟩

/-- C7: if the lower-cased input text contains "tuition" (i.e. the original
text contains it in any letter case), the heuristic `tuition_fee` field is
the fixed non-sentinel placeholder fee string; if the lower-cased text
contains none of the fee keywords/symbols, the field is the sentinel
"Not found". -/
theorem mocked_tuition_keywords (raw : String) (uni : String) :
    (containsStr (mockTextLower (some raw)) ("tuition").data = true →
      pyDictGet (extract_structured_data_mocked (some raw) uni) "tuition_fee" =
        some (Json.str mockFeeStr)) ∧
    ((∀ kw ∈ feeKeywords, containsStr (mockTextLower (some raw)) kw.data = false) →
      pyDictGet (extract_structured_data_mocked (some raw) uni) "tuition_fee" =
        some (Json.str "Not found")) := by
  constructor
  · intro h
    have hfee : feeKeywords.any
        (fun kw => containsStr (mockTextLower (some raw)) kw.data) = true := by
      rw [List.any_eq_true]
      exact ⟨"tuition", by simp [feeKeywords], h⟩
    unfold extract_structured_data_mocked
    cases hm : searchMaster (mockTextLower (some raw)) <;>
      by_cases h1 : containsStr (mockTextLower (some raw)) ("information studies").data = true <;>
      by_cases h3 : (deadlineKeywords.any (fun kw => containsStr (mockTextLower (some raw)) kw.data)
          || monthNames.any (fun m => containsStr (mockTextLower (some raw)) m.data)) = true <;>
      by_cases h4 : reqKeywords.any (fun kw => containsStr (mockTextLower (some raw)) kw.data) = true <;>
      simp [hm, h1, hfee, h3, h4, dictSet, pyDictGet, TARGET_SCHEMA]
  · intro h
    have hfee : feeKeywords.any
        (fun kw => containsStr (mockTextLower (some raw)) kw.data) = false := by
      rw [List.any_eq_false]
      intro kw hkw
      simp [h kw hkw]
    unfold extract_structured_data_mocked
    cases hm : searchMaster (mockTextLower (some raw)) <;>
      by_cases h1 : containsStr (mockTextLower (some raw)) ("information studies").data = true <;>
      by_cases h3 : (deadlineKeywords.any (fun kw => containsStr (mockTextLower (some raw)) kw.data)
          || monthNames.any (fun m => containsStr (mockTextLower (some raw)) m.data)) = true <;>
      by_cases h4 : reqKeywords.any (fun kw => containsStr (mockTextLower (some raw)) kw.data) = true <;>
      simp [hm, h1, hfee, h3, h4, dictSet, pyDictGet, TARGET_SCHEMA]

/-- Witness for C7: the text "Tuition fees: EUR 2000" (upper-case T) yields
the placeholder fee string; the text "hello world", which contains no fee
keyword or symbol, keeps the sentinel. -/
theorem mocked_tuition_keywords_witness :
    pyDictGet (extract_structured_data_mocked (some "Tuition fees: EUR 2000") "U")
      "tuition_fee" = some (Json.str mockFeeStr) ∧
    pyDictGet (extract_structured_data_mocked (some "hello world") "U")
      "tuition_fee" = some (Json.str "Not found") := by
  constructor
  · exact (mocked_tuition_keywords "Tuition fees: EUR 2000" "U").1 (by decide)
  · exact (mocked_tuition_keywords "hello world" "U").2 (by decide)

/-- C8: on the empty input text, the heuristic record has the generic
fallback program name, the argument as `university_name`, and the sentinel
"Not found" in the three remaining fields. -/
theorem mocked_empty_text_defaults (uni : String) :
    pyDictGet (extract_structured_data_mocked (some "") uni) "program_name" =
        some (Json.str "Mock Program: Check official page title") ∧
    pyDictGet (extract_structured_data_mocked (some "") uni) "university_name" =
        some (Json.str uni) ∧
    pyDictGet (extract_structured_data_mocked (some "") uni) "tuition_fee" =
        some (Json.str "Not found") ∧
    pyDictGet (extract_structured_data_mocked (some "") uni) "application_deadline" =
        some (Json.str "Not found") ∧
    pyDictGet (extract_structured_data_mocked (some "") uni) "entry_requirement_summary" =
        some (Json.str "Not found") :=
  ⟨rfl, rfl, rfl, rfl, rfl⟩

/-- C9 (amended): every record of the heuristic variant maps each key to a
string; the model-backed variant's records map each key to a string
whenever every value of the parsed object is a string — values are passed
through unchanged, so a non-string value in the model's JSON survives into
the record (see the counterexample). -/
theorem record_values_strings :
    (∀ (raw : Option String) (uni : String) (p : String × Json),
        p ∈ extract_structured_data_mocked raw uni → p.2.isStr = true) ∧
    (∀ kvs : PyDict, (∀ q : String × Json, q ∈ kvs → q.2.isStr = true) →
        ∀ p : String × Json, p ∈ validateKeys schemaKeysList kvs → p.2.isStr = true) := by
  constructor
  · intro raw uni p hp
    unfold extract_structured_data_mocked at hp
    cases hm : searchMaster (mockTextLower raw) <;>
      by_cases h1 : containsStr (mockTextLower raw) ("information studies").data = true <;>
      by_cases h2 : feeKeywords.any (fun kw => containsStr (mockTextLower raw) kw.data) = true <;>
      by_cases h3 : (deadlineKeywords.any (fun kw => containsStr (mockTextLower raw) kw.data)
          || monthNames.any (fun m => containsStr (mockTextLower raw) m.data)) = true <;>
      by_cases h4 : reqKeywords.any (fun kw => containsStr (mockTextLower raw) kw.data) = true <;>
      simp [hm, h1, h2, h3, h4, dictSet, TARGET_SCHEMA] at hp <;>
      rcases hp with rfl | rfl | rfl | rfl | rfl <;> rfl
  · intro kvs h p hp
    exact validateKeys_values schemaKeysList kvs h p hp

/-- Witness for C9: applying the validation part to the all-string parsed
object with the single field `program_name`. -/
theorem record_values_strings_witness :
    (("program_name", Json.str "X") : String × Json).2.isStr = true :=
  record_values_strings.2 [("program_name", Json.str "X")]
    (fun q hq => by rw [List.mem_singleton.mp hq]; rfl)
    ("program_name", Json.str "X") (List.mem_cons_self _ _)

/-- Counterexample to C9 as stated: a model response whose `tuition_fee`
value is the JSON number 12000 produces a record whose `tuition_fee` field
is not a string — the validation loop passes values through without any
type check. -/
theorem ollama_nonstring_value_cex :
    ollamaParseContentL ("\x7b\"tuition_fee\": 12000\x7d").data =
      some [("program_name", Json.str "Not found (missing in LLM output)"),
            ("university_name", Json.str "Not found (missing in LLM output)"),
            ("tuition_fee", Json.num 12000),
            ("application_deadline", Json.str "Not found (missing in LLM output)"),
            ("entry_requirement_summary", Json.str "Not found (missing in LLM output)")] ∧
    Json.isStr (Json.num 12000) = false := ⟨rfl, rfl⟩
